import Mathlib

/-!
Verification of the Epson PX-8 ROM tools (`makerom.cpp`, `dumprom.cpp`)
against their natural-language specification.

The two programs are shallowly embedded below.  Bytes are `Nat`s (the
C++ `uint8_t` values; wherever the C++ performs 8- or 16-bit arithmetic
the embedding reduces modulo 2^8 / 2^16 explicitly).  Byte buffers are
`List Nat`.  The file system and CLI glue are outside the embedding: an
input file is given as its already-split 8.3 name parts plus its byte
content (mirroring `split_file_name`'s output), and the unpacker's
output stream operations are modelled as an accumulator of
`(file name bytes, content bytes)` pairs, where a `write` on a stream
that was never opened is dropped (the C++ stream just sets its failbit
and writes nothing).
-/

namespace EpsonRom

/-- Decidable equality for `Except`, so that runs of the embedded
programs can be checked on concrete inputs by `decide`. -/
instance instDecEqExcept {ε α : Type} [DecidableEq ε] [DecidableEq α] :
    DecidableEq (Except ε α) := fun a b =>
  match a, b with
  | Except.ok x, Except.ok y =>
      if h : x = y then isTrue (by rw [h])
      else isFalse (fun hc => h (by injection hc))
  | Except.error x, Except.error y =>
      if h : x = y then isTrue (by rw [h])
      else isFalse (fun hc => h (by injection hc))
  | Except.ok _, Except.error _ => isFalse (fun hc => Except.noConfusion hc)
  | Except.error _, Except.ok _ => isFalse (fun hc => Except.noConfusion hc)

/-- Packer-side errors reachable in the embedded fragment of
`makerom.cpp` (`fatal` calls inside the packing loop and the final
capacity check).  File-system errors (`Output file already exists.`,
`failed to open input file.`) and the 8.3 name check live in the
non-embedded CLI glue. -/
inductive PackError
  | outOfDirectorySpace
  | outOfRomSpace
  deriving DecidableEq, Repr

/-- Unpacker-side terminal outcomes of `dumprom.cpp`: `notARom` is the
operator-facing `fatal("Not a valid rom file.")`; `assertFailed` is an
`assert` firing inside `file_area_offset` (the tool is compiled with
assertions enabled, so a violated assertion aborts the run). -/
inductive DumpError
  | notARom
  | assertFailed
  deriving DecidableEq, Repr

/-- One 32-byte directory entry of the CP/M-style ROM directory,
field-for-field the C++ `struct DirEntry` (`makerom.cpp` lines 72-81).
`zero` is the 16-bit little-endian field at offsets 13-14. -/
structure DirEntry where
  validity : Nat
  file_name : List Nat
  file_type : List Nat
  logical_extent : Nat
  zero : Nat
  record_count : Nat
  allocation_map : List Nat
  deriving DecidableEq, Repr

/-- The ROM header, field-for-field the C++ `struct RomHeader`
(`makerom.cpp` lines 57-70).  `checksum` is the 16-bit value stored
little-endian at offsets 3-4. -/
structure RomHeader where
  id0 : Nat
  id1 : Nat
  capacity : Nat
  checksum : Nat
  system_name : List Nat
  rom_name : List Nat
  dir_entries : Nat
  v : Nat
  version : List Nat
  month : List Nat
  day : List Nat
  year : List Nat
  deriving DecidableEq, Repr

/-- An input file as the packer sees it after `split_file_name`: the
8-byte space-padded name, the 3-byte space-padded extension, and the
raw content read from disk. -/
structure InputFile where
  name : List Nat
  ftype : List Nat
  bytes : List Nat
  deriving DecidableEq, Repr

/-- Serialization of a `DirEntry` to its 32 on-ROM bytes (the packed
in-memory layout of the C++ struct on a little-endian host). -/
def serDirEntry (e : DirEntry) : List Nat :=
  e.validity ::
    (e.file_name ++ (e.file_type ++
      (e.logical_extent :: e.zero % 256 :: e.zero / 256 % 256 ::
        e.record_count :: e.allocation_map)))

/-- Serialization of the `RomHeader` to its 32 on-ROM bytes. -/
def serHeader (h : RomHeader) : List Nat :=
  h.id0 :: h.id1 :: h.capacity :: h.checksum % 256 :: h.checksum / 256 % 256 ::
    (h.system_name ++ (h.rom_name ++
      (h.dir_entries :: h.v ::
        (h.version ++ (h.month ++ (h.day ++ h.year))))))

/-- A directory slot as left by the initial
`std::vector<uint8_t> directory(1024, DIR_ENTRY_INVALID)` fill: all 32
bytes are 0xE5 (`makerom.cpp` line 149; the loop at lines 167-170
re-writes the already-0xE5 validity byte). -/
def invalidEntry : DirEntry :=
  { validity := 0xE5
    file_name := List.replicate 8 0xE5
    file_type := List.replicate 3 0xE5
    logical_extent := 0xE5
    zero := 0xE5E5
    record_count := 0xE5
    allocation_map := List.replicate 16 0xE5 }

/-- A freshly reserved directory slot: `memset(&dirBase[cd], 0, 32)`
followed by the name, type and extent stores (`makerom.cpp` lines
217-220 and 233-237).  The extent lands in a `uint8_t`. -/
def freshEntry (nm tp : List Nat) (le : Nat) : DirEntry :=
  { validity := 0
    file_name := nm
    file_type := tp
    logical_extent := le % 256
    zero := 0
    record_count := 0
    allocation_map := List.replicate 16 0 }

/-- Number of 1 KiB chunks a file of `len` bytes occupies:
`(buffer.size() + 1023) / 1024` (`makerom.cpp` line 199). -/
def chunksOf (len : Nat) : Nat := (len + 1023) / 1024

/-- The padding step of `makerom.cpp` lines 202-207: when the size is
not already a 1 KiB multiple the buffer is `resize`d up to
`chunks * 1024`.  `std::vector::resize` value-initializes the new
bytes, i.e. appends zeros; the subsequent `memset(ptr, diff, 0)` has
its arguments transposed and writes zero bytes, leaving the
(already zero) tail unchanged. -/
def padFile (bytes : List Nat) : List Nat :=
  if bytes.length < chunksOf bytes.length * 1024 then
    bytes ++ List.replicate (chunksOf bytes.length * 1024 - bytes.length) 0
  else bytes

/-- Mutable state of the packing loop in `makerom.cpp main`: the
32-slot directory buffer (slot 0 is the header's home and is never
touched by the loop), the `currentDirectory` and `nextAllocation`
`uint8_t` counters, and the growing `file_area` byte vector. -/
structure PackState where
  dir : List DirEntry
  currentDirectory : Nat
  nextAllocation : Nat
  file_area : List Nat
  deriving DecidableEq, Repr

/-- State before any file is processed (`makerom.cpp` lines 149-174). -/
def initState : PackState :=
  { dir := List.replicate 32 invalidEntry
    currentDirectory := 0
    nextAllocation := 1
    file_area := [] }

/-- The per-chunk loop of `makerom.cpp` lines 223-246, by recursion on
the number of chunks still to place.  State: directory, current slot,
`allocationIndex`, `nextLogicalExtent`, `nextAllocation`.  When the
current slot's allocation map is full (16 entries) the file spills into
a freshly reserved slot, failing with `Out of directory space.` when
slot 0x1F is exhausted.  Each chunk adds 8 records and one block id to
the current slot.  (The byte copy into `file_area` is accounted for
once, in `processFile`.) -/
def chunkLoop (nm tp : List Nat) :
    Nat → List DirEntry → Nat → Nat → Nat → Nat →
    Except PackError (List DirEntry × Nat × Nat)
  | 0, dir, cd, _, _, na => Except.ok (dir, cd, na)
  | n + 1, dir, cd, ai, le, na =>
      if 16 ≤ ai then
        if 31 < (cd + 1) % 256 then Except.error PackError.outOfDirectorySpace
        else
          let cd2 := (cd + 1) % 256
          let dir2 := dir.set cd2 (freshEntry nm tp le)
          let e := dir2.getD cd2 invalidEntry
          chunkLoop nm tp n
            (dir2.set cd2
              { e with record_count := (e.record_count + 8) % 256
                       allocation_map := e.allocation_map.set 0 na })
            cd2 1 (le + 1) ((na + 1) % 256)
      else
        let e := dir.getD cd invalidEntry
        chunkLoop nm tp n
          (dir.set cd
            { e with record_count := (e.record_count + 8) % 256
                     allocation_map := e.allocation_map.set ai na })
          cd (ai + 1) le ((na + 1) % 256)

/-- Processing of one input file (`makerom.cpp` lines 177-248):
advance `currentDirectory` (failing when it would pass 0x1F = 31),
reserve the slot with extent 0, then run the chunk loop; the padded
content is appended to the file area. -/
def processFile (st : PackState) (f : InputFile) : Except PackError PackState :=
  let cd := (st.currentDirectory + 1) % 256
  if 31 < cd then Except.error PackError.outOfDirectorySpace
  else
    let dir1 := st.dir.set cd (freshEntry f.name f.ftype 0)
    match chunkLoop f.name f.ftype (chunksOf f.bytes.length) dir1 cd 0 1 st.nextAllocation with
    | Except.error e => Except.error e
    | Except.ok (dir2, cd2, na2) =>
        Except.ok
          { dir := dir2
            currentDirectory := cd2
            nextAllocation := na2
            file_area := st.file_area ++ padFile f.bytes }

/-- The `for(iFile...)` loop over all input files. -/
def packFold (st : PackState) : List InputFile → Except PackError PackState
  | [] => Except.ok st
  | f :: fs =>
      match processFile st f with
      | Except.error e => Except.error e
      | Except.ok st2 => packFold st2 fs

/-- State after the whole packing loop, starting from `initState`. -/
def packState (files : List InputFile) : Except PackError PackState :=
  packFold initState files

/-- The final `hdr->dir_entries` value: `((currentDirectory + 3) / 4) * 4`
(`makerom.cpp` line 251), stored in a `uint8_t`. -/
def finalDirEntries (cd : Nat) : Nat := (((cd + 3) / 4) * 4) % 256

/-- The `rom_name` header field: the output name truncated to 14 bytes
over a space fill (`makerom.cpp` lines 156-157). -/
def romNameOf (outName : List Nat) : List Nat :=
  outName.take 14 ++ List.replicate (14 - outName.length) 0x20

/-- The header as finally written (`makerom.cpp` lines 152-164 for the
constant fields, lines 251-254 for `dir_entries` and the 16-bit
size-tag `checksum`).  System name "H80", v = 'V', version "10", build
date 11/16/20. -/
def finalHeader (outName : List Nat) (st : PackState) : RomHeader :=
  { id0 := 0xE5
    id1 := 0x37
    capacity := 0x20
    checksum := st.file_area.length % 65536
    system_name := [0x48, 0x38, 0x30]
    rom_name := romNameOf outName
    dir_entries := finalDirEntries st.currentDirectory
    v := 0x56
    version := [0x31, 0x30]
    month := [0x31, 0x31]
    day := [0x31, 0x36]
    year := [0x32, 0x30] }

/-- The 1024 bytes of the in-RAM directory buffer: the header overlays
slot 0, slots 1..31 follow. -/
def dirBytes (hdr : RomHeader) (dir : List DirEntry) : List Nat :=
  serHeader hdr ++ List.flatten ((dir.drop 1).map serDirEntry)

/-- Serialization of the finished state to the (pre-swap) 0x8000-byte
image (`makerom.cpp` lines 256-265): check `dir_entries*32 +
file_area.size()` against the ROM size, fill with 0xFF, copy the first
`dir_entries*32` directory bytes, then the file area. -/
def serialise (outName : List Nat) (st : PackState) : Except PackError (List Nat) :=
  if 0x8000 < finalDirEntries st.currentDirectory * 32 + st.file_area.length then
    Except.error PackError.outOfRomSpace
  else
    Except.ok
      ((dirBytes (finalHeader outName st) st.dir).take
          (finalDirEntries st.currentDirectory * 32) ++
        (st.file_area ++
          List.replicate
            (0x8000 -
              (finalDirEntries st.currentDirectory * 32 + st.file_area.length))
            0xFF))

/-- The packed image before the physical/logical address swap. -/
def packImage (outName : List Nat) (files : List InputFile) :
    Except PackError (List Nat) :=
  match packState files with
  | Except.error e => Except.error e
  | Except.ok st => serialise outName st

/-- The 256-kbit physical/logical address swap: exchange the two
16 KiB halves of a 0x8000-byte buffer (`makerom.cpp` lines 267-273 and
`dumprom.cpp` lines 216-222 perform the same two `memcpy`s). -/
def swapHalves (buf : List Nat) : List Nat :=
  buf.drop 0x4000 ++ buf.take 0x4000

/-- The full packer back end: pack, serialise, and apply the address
swap (done exactly when `hdr->capacity == CAPACITY_256kbit`, which the
packer always sets).  The result is the byte string written to disk. -/
def packCore (outName : List Nat) (files : List InputFile) :
    Except PackError (List Nat) :=
  match packState files with
  | Except.error e => Except.error e
  | Except.ok st =>
      match serialise outName st with
      | Except.error e => Except.error e
      | Except.ok img =>
          Except.ok
            (if (finalHeader outName st).capacity = 0x20 then swapHalves img
             else img)

/-- The `argc < 2` usage test of `makerom.cpp` line 130 (`argc` counts
the program name and the output path; input files start at `argv[2]`). -/
def usageCheck (argc : Nat) : Bool := argc < 2

/-- The unpacker's output-file accumulator: the files already closed
(in order), and the currently open output, each as
`(file name bytes, content bytes)`. -/
abbrev DumpAcc := List (List Nat × List Nat) × Option (List Nat × List Nat)

/-- Closing the current output stream (`outFile.close()`); closing a
never-opened stream does nothing. -/
def closeOut : DumpAcc → List (List Nat × List Nat)
  | (done, none) => done
  | (done, some f) => done ++ [f]

/-- The bytes one directory slot contributes (`dumprom.cpp` lines
152-158 / 170-176): for each non-zero `allocation_map[i]`, in order,
the 1024 bytes at `block_address(fileBase, blockNo)` =
`fileBase + (blockNo - 1) * 1024`. -/
def slotBlocks (buf : List Nat) (fileBase off : Nat) : List Nat :=
  List.flatten
    (((List.range 16).map (fun i => buf.getD (off + 16 + i) 0)).filterMap
      (fun b =>
        if b = 0 then none
        else some ((buf.drop (fileBase + (b - 1) * 1024)).take 1024)))

/-- The `trim` helper of `dumprom.cpp` lines 97-107: keep everything
before the first space. -/
def trimSp (s : List Nat) : List Nat := s.takeWhile (fun c => c != 0x20)

/-- The body of the directory walk for one slot (`dumprom.cpp` lines
131-178).  A valid slot with extent 0 closes the current output and
opens `trim(name)."."trim(type)`; a valid slot with a non-zero extent
appends its blocks to the open output (a write without an open output
is dropped: the C++ stream merely sets its failbit).  Invalid slots
are skipped. -/
def processSlot (buf : List Nat) (fileBase dirNo : Nat) (acc : DumpAcc) :
    DumpAcc :=
  if buf.getD (dirNo * 32) 0 = 0 then
    if buf.getD (dirNo * 32 + 12) 0 = 0 then
      (closeOut acc,
       some
         (trimSp ((List.range 8).map fun i => buf.getD (dirNo * 32 + 1 + i) 0) ++
            (0x2E ::
              trimSp ((List.range 3).map fun i => buf.getD (dirNo * 32 + 9 + i) 0)),
          slotBlocks buf fileBase (dirNo * 32)))
    else
      match acc with
      | (done, none) => (done, none)
      | (done, some f) => (done, some (f.1, f.2 ++ slotBlocks buf fileBase (dirNo * 32)))
  else acc

/-- The `while(dirNo <= header->dir_entries)` walk (`dumprom.cpp`
lines 124-181), by recursion on the number of iterations left: `dirNo`
runs from 1 to `dir_entries` inclusive. -/
def walkSlots (buf : List Nat) (fileBase : Nat) :
    Nat → Nat → DumpAcc → DumpAcc
  | 0, _, acc => acc
  | n + 1, dirNo, acc =>
      walkSlots buf fileBase n (dirNo + 1) (processSlot buf fileBase dirNo acc)

/-- The `dump_files` routine of `dumprom.cpp` lines 109-186, applied to
the (already unswapped) image bytes.  The magic test is the literal
`(id[0] != 0xE5) && (id[1] != 0x37)` of line 113; the `dir_entries`
range test is the pair of `assert`s inside `file_area_offset` (lines
70-71), whose violation aborts the run. -/
def dump_files (buf : List Nat) : Except DumpError (List (List Nat × List Nat)) :=
  if buf.getD 0 0 ≠ 0xE5 ∧ buf.getD 1 0 ≠ 0x37 then
    Except.error DumpError.notARom
  else if ¬(buf.getD 22 0 % 4 = 0 ∧ buf.getD 22 0 ≤ 0x20) then
    Except.error DumpError.assertFailed
  else
    Except.ok
      (closeOut (walkSlots buf (buf.getD 22 0 * 32) (buf.getD 22 0) 1 ([], none)))

/-- The unpacker's `main` (`dumprom.cpp` lines 213-224): undo the
address swap exactly when the file is 0x8000 bytes long, then walk the
directory. -/
def dumpMain (buf : List Nat) : Except DumpError (List (List Nat × List Nat)) :=
  dump_files (if buf.length = 0x8000 then swapHalves buf else buf)

/-! Specification-level quantities used to state the claims. -/

/-- Directory slots the chunk loop consumes beyond the one reserved at
file start, when `n` chunks remain and the allocation index stands at
`ai`; this mirrors the spill structure of `chunkLoop`. -/
def extraSlots : Nat → Nat → Nat
  | 0, _ => 0
  | n + 1, ai => if 16 ≤ ai then extraSlots n 1 + 1 else extraSlots n (ai + 1)

/-- Total directory slots one input file consumes. -/
def slotsForFile (f : InputFile) : Nat :=
  1 + extraSlots (chunksOf f.bytes.length) 0

/-- Total directory slots a run of the packing loop consumes. -/
def slotsList (files : List InputFile) : Nat := (files.map slotsForFile).sum

/-- The number of data slots an input list needs, in the spec's terms:
one slot per file plus one per started group of 16 chunks
(`ceil(chunks / 16)` slots for a non-empty file, one slot for an empty
file). -/
def slotsNeeded (files : List InputFile) : Nat :=
  (files.map (fun f =>
    if chunksOf f.bytes.length = 0 then 1
    else (chunksOf f.bytes.length + 15) / 16)).sum

/-- Shape invariant of a directory entry: the C++ struct's fixed array
fields have their fixed sizes. -/
def wfEntry (e : DirEntry) : Prop :=
  e.file_name.length = 8 ∧ e.file_type.length = 3 ∧ e.allocation_map.length = 16

/-- Shape invariant of an input file accepted by the CLI: the name
parts come out of `split_file_name` as exactly 8 + 3 space-padded
bytes. -/
def wfInput (f : InputFile) : Prop := f.name.length = 8 ∧ f.ftype.length = 3

/-- Shape invariant of the in-RAM directory: 32 slots of 32 bytes. -/
def wfDir (dir : List DirEntry) : Prop :=
  dir.length = 32 ∧ ∀ e ∈ dir, wfEntry e

/-! Concrete inputs used for the counterexamples and witnesses. -/

/-- The file `HELLO.TXT` with content bytes 1..6 (name parts as
`split_file_name` returns them). -/
def sampleFile : InputFile :=
  { name := [72, 69, 76, 76, 79, 32, 32, 32]
    ftype := [84, 88, 84]
    bytes := [1, 2, 3, 4, 5, 6] }

/-- Directory slot 1 after packing `sampleFile`: valid, extent 0,
8 records, block 1. -/
def sampleEntry : DirEntry :=
  { validity := 0
    file_name := [72, 69, 76, 76, 79, 32, 32, 32]
    file_type := [84, 88, 84]
    logical_extent := 0
    zero := 0
    record_count := 8
    allocation_map := [1, 0, 0, 0, 0, 0, 0, 0, 0, 0, 0, 0, 0, 0, 0, 0] }

/-- The packing state after processing `sampleFile`. -/
def sampleSt : PackState :=
  { dir := (List.replicate 32 invalidEntry).set 1 sampleEntry
    currentDirectory := 1
    nextAllocation := 2
    file_area := [1, 2, 3, 4, 5, 6] ++ List.replicate 1018 0 }

/-- The pre-swap image of the pack of `sampleFile` under output name
"O.R". -/
def sampleImg : List Nat :=
  (dirBytes (finalHeader [79, 46, 82] sampleSt) sampleSt.dir).take 128 ++
    (sampleSt.file_area ++ List.replicate 31616 0xFF)

/-- A 1024-byte input whose first file-area block itself parses as a
valid continuation directory entry: byte 0 (validity) is 0, byte 12
(logical extent) is 1, byte 16 (first allocation-map entry) is 1. -/
def c1Bytes : List Nat :=
  0 :: (List.replicate 11 0 ++ (1 :: (List.replicate 3 0 ++ (1 :: List.replicate 1007 0))))

/-- The file `A.B` holding `c1Bytes`. -/
def c1File : InputFile :=
  { name := [65, 32, 32, 32, 32, 32, 32, 32]
    ftype := [66, 32, 32]
    bytes := c1Bytes }

/-- Directory slot 1 after packing `c1File`. -/
def c1Entry : DirEntry :=
  { validity := 0
    file_name := [65, 32, 32, 32, 32, 32, 32, 32]
    file_type := [66, 32, 32]
    logical_extent := 0
    zero := 0
    record_count := 8
    allocation_map := [1, 0, 0, 0, 0, 0, 0, 0, 0, 0, 0, 0, 0, 0, 0, 0] }

/-- The packing state after processing `c1File`. -/
def c1St : PackState :=
  { dir := (List.replicate 32 invalidEntry).set 1 c1Entry
    currentDirectory := 1
    nextAllocation := 2
    file_area := c1Bytes }

/-- The pre-swap image of the pack of `c1File` under output name "O". -/
def c1Img : List Nat :=
  (dirBytes (finalHeader [79] c1St) c1St.dir).take 128 ++
    (c1Bytes ++ List.replicate 31616 0xFF)

/-- The ROM file the packer writes for `c1File`. -/
def c1Rom : List Nat := swapHalves c1Img

/-- An empty input file named `<c>.X`. -/
def emptyFile (c : Nat) : InputFile :=
  { name := [c, 32, 32, 32, 32, 32, 32, 32], ftype := [88, 32, 32], bytes := [] }

/-- Four empty input files `A.X` .. `D.X`; they occupy directory slots
1..4. -/
def c2Files : List InputFile :=
  [emptyFile 65, emptyFile 66, emptyFile 67, emptyFile 68]

/-- A one-byte input file named `<c>.X`. -/
def oneByteFile (c : Nat) : InputFile :=
  { name := [c, 32, 32, 32, 32, 32, 32, 32], ftype := [88, 32, 32], bytes := [7] }

/-- Thirty-two distinct one-byte input files (the spec's scenario S5). -/
def files32 : List InputFile := (List.range 32).map (fun i => oneByteFile (65 + i))

/-- A 0x8000-byte buffer whose post-swap header starts `0x00 0x37`:
byte 0x4000 is 0 (not the 0xE5 magic) and byte 0x4001 is 0x37. -/
def c3Buf : List Nat :=
  List.replicate 0x4000 0 ++ (0 :: 0x37 :: List.replicate 0x3FFE 0)

/-- The 32 file-area bytes at offset 128 of `c4Img`, shaped like a
valid extent-0 directory entry for `X.Y` with block 1. -/
def c4Phantom : List Nat :=
  0 :: ((88 :: List.replicate 7 32) ++ ((89 :: List.replicate 2 32) ++
    (0 :: 0 :: 0 :: 8 :: (1 :: List.replicate 15 0))))

/-- A (post-swap) image with a well-formed header, `dir_entries = 4`,
all of slots 1..3 invalid (0xE5), and `c4Phantom` as the first 32
bytes of the file area (offset 128 = `dir_entries * 32`). -/
def c4Img : List Nat :=
  ([0xE5, 0x37] ++ (List.replicate 20 0 ++ ([4] ++ List.replicate 9 0))) ++
    (List.replicate 96 0xE5 ++ (c4Phantom ++ List.replicate (0x8000 - 160) 0))

/-- A (post-swap) image passing the magic check whose `dir_entries`
byte is 5 (not a multiple of 4). -/
def c8Img : List Nat :=
  [0xE5, 0x37] ++ (List.replicate 20 0 ++ ([5] ++ List.replicate (0x8000 - 23) 0))

/-! Helper lemmas. -/

/-- The half-swap is an involution on 0x8000-byte buffers. -/
theorem swapHalves_involution (buf : List Nat) (h : buf.length = 0x8000) :
    swapHalves (swapHalves buf) = buf := by
  have hd : (buf.drop 0x4000).length = 0x4000 := by simp [h]
  unfold swapHalves
  rw [List.drop_left' hd, List.take_left' hd, List.take_append_drop]

/-- The half-swap preserves the 0x8000-byte length. -/
theorem swapHalves_length (buf : List Nat) (h : buf.length = 0x8000) :
    (swapHalves buf).length = 0x8000 := by
  simp [swapHalves, h]

/-- The half-swap fixes a constant buffer of at least 16 KiB. -/
theorem swapHalves_replicate (m c : Nat) (h : 0x4000 ≤ m) :
    swapHalves (List.replicate m c) = List.replicate m c := by
  unfold swapHalves
  rw [List.drop_replicate, List.take_replicate, ← List.replicate_add]
  congr 1
  omega

/-- The packer's written bytes are the half-swap of the serialized
image: the swap is applied exactly once, after serialization, because
the header's capacity byte is always 0x20. -/
theorem packCore_eq_map (nm : List Nat) (files : List InputFile) :
    packCore nm files = Except.map swapHalves (packImage nm files) := by
  unfold packCore packImage
  cases packState files with
  | error e => rfl
  | ok st =>
      cases hs : serialise nm st with
      | error e => simp [hs, Except.map]
      | ok img => simp [hs, Except.map, finalHeader]

/-- Unfolding of `packImage` on a successful packing loop. -/
theorem packImage_ok_st (nm : List Nat) (files : List InputFile) (st : PackState)
    (h : packState files = Except.ok st) : packImage nm files = serialise nm st := by
  unfold packImage
  rw [h]

/-- Unfolding of `packImage` on a failed packing loop. -/
theorem packImage_error_st (nm : List Nat) (files : List InputFile) (e : PackError)
    (h : packState files = Except.error e) :
    packImage nm files = Except.error e := by
  unfold packImage
  rw [h]

/-- The serializer can only fail with `outOfRomSpace`. -/
theorem serialise_error (nm : List Nat) (st : PackState) (e : PackError)
    (h : serialise nm st = Except.error e) : e = PackError.outOfRomSpace := by
  unfold serialise at h
  by_cases hc :
      0x8000 < finalDirEntries st.currentDirectory * 32 + st.file_area.length
  · rw [if_pos hc] at h
    injection h with h
    exact h.symm
  · rw [if_neg hc] at h
    exact Except.noConfusion h

/-- Mapping a function over an `Except` does not change which error it
is. -/
theorem map_error_iff (f : List Nat → List Nat)
    (x : Except PackError (List Nat)) (e : PackError) :
    Except.map f x = Except.error e ↔ x = Except.error e := by
  cases x <;> simp [Except.map]

/-- One chunk-loop step when the allocation map is full and no slot is
left. -/
theorem chunkLoop_fail (nm tp : List Nat) (n : Nat) (dir : List DirEntry)
    (cd ai le na : Nat) (h : 16 ≤ ai) (h2 : 31 < (cd + 1) % 256) :
    chunkLoop nm tp (n + 1) dir cd ai le na =
      Except.error PackError.outOfDirectorySpace := by
  simp only [chunkLoop]
  rw [if_pos h, if_pos h2]

/-- One chunk-loop step when the allocation map is full and a slot is
available: the loop continues on the next slot with allocation index 1
and the next extent. -/
theorem chunkLoop_spill (nm tp : List Nat) (n : Nat) (dir : List DirEntry)
    (cd ai le na : Nat) (h : 16 ≤ ai) (h2 : ¬ 31 < (cd + 1) % 256) :
    ∃ dir2, chunkLoop nm tp (n + 1) dir cd ai le na =
      chunkLoop nm tp n dir2 ((cd + 1) % 256) 1 (le + 1) ((na + 1) % 256) := by
  simp only [chunkLoop]
  rw [if_pos h, if_neg h2]
  exact ⟨_, rfl⟩

/-- One chunk-loop step when the allocation map still has room. -/
theorem chunkLoop_step (nm tp : List Nat) (n : Nat) (dir : List DirEntry)
    (cd ai le na : Nat) (h : ¬ 16 ≤ ai) :
    ∃ dir2, chunkLoop nm tp (n + 1) dir cd ai le na =
      chunkLoop nm tp n dir2 cd (ai + 1) le ((na + 1) % 256) := by
  simp only [chunkLoop]
  rw [if_neg h]
  exact ⟨_, rfl⟩

/-- Slot accounting of the chunk loop: starting below slot 32, the
loop succeeds, ending `extraSlots n ai` slots further, exactly when
that stays within slot 31; otherwise it fails with
`outOfDirectorySpace`. -/
theorem chunkLoop_char (nm tp : List Nat) :
    ∀ (n : Nat) (dir : List DirEntry) (cd ai le na : Nat), cd ≤ 31 →
      (if cd + extraSlots n ai ≤ 31
       then ∃ dir2 na2, chunkLoop nm tp n dir cd ai le na =
              Except.ok (dir2, cd + extraSlots n ai, na2)
       else chunkLoop nm tp n dir cd ai le na =
              Except.error PackError.outOfDirectorySpace) := by
  intro n
  induction n with
  | zero =>
      intro dir cd ai le na hcd
      rw [if_pos (by simp only [extraSlots]; omega)]
      exact ⟨dir, na, by simp [chunkLoop, extraSlots]⟩
  | succ n ih =>
      intro dir cd ai le na hcd
      by_cases hai : 16 ≤ ai
      · have hes : extraSlots (n + 1) ai = extraSlots n 1 + 1 := by
          simp only [extraSlots]
          rw [if_pos hai]
        rw [hes]
        by_cases hcd1 : 31 < cd + 1
        · have hcm : 31 < (cd + 1) % 256 := by
            rw [Nat.mod_eq_of_lt (by omega)]
            exact hcd1
          rw [if_neg (by omega)]
          exact chunkLoop_fail nm tp n dir cd ai le na hai hcm
        · have hcm : ¬ 31 < (cd + 1) % 256 := by
            rw [Nat.mod_eq_of_lt (by omega)]
            exact hcd1
          obtain ⟨dir2, heq⟩ := chunkLoop_spill nm tp n dir cd ai le na hai hcm
          have hmod : (cd + 1) % 256 = cd + 1 := Nat.mod_eq_of_lt (by omega)
          rw [hmod] at heq
          have ih2 := ih dir2 (cd + 1) 1 (le + 1) ((na + 1) % 256) (by omega)
          by_cases hall : cd + (extraSlots n 1 + 1) ≤ 31
          · rw [if_pos hall]
            rw [if_pos (by omega)] at ih2
            obtain ⟨dir3, na3, heq3⟩ := ih2
            refine ⟨dir3, na3, ?_⟩
            rw [heq, heq3]
            congr 3
            omega
          · rw [if_neg hall]
            rw [if_neg (by omega)] at ih2
            rw [heq, ih2]
      · have hes : extraSlots (n + 1) ai = extraSlots n (ai + 1) := by
          simp only [extraSlots]
          rw [if_neg hai]
        obtain ⟨dir2, heq⟩ := chunkLoop_step nm tp n dir cd ai le na hai
        have ih2 := ih dir2 cd (ai + 1) le ((na + 1) % 256) hcd
        rw [hes, heq]
        exact ih2

/-- Slot accounting of `processFile`: it consumes `slotsForFile f`
slots when they fit, and fails with `outOfDirectorySpace` otherwise. -/
theorem processFile_char (st : PackState) (f : InputFile)
    (h : st.currentDirectory ≤ 31) :
    (if st.currentDirectory + slotsForFile f ≤ 31
     then ∃ st2, processFile st f = Except.ok st2 ∧
            st2.currentDirectory = st.currentDirectory + slotsForFile f
     else processFile st f = Except.error PackError.outOfDirectorySpace) := by
  have hmod : (st.currentDirectory + 1) % 256 = st.currentDirectory + 1 :=
    Nat.mod_eq_of_lt (by omega)
  have hsf : slotsForFile f = 1 + extraSlots (chunksOf f.bytes.length) 0 := rfl
  by_cases hcd : 31 < st.currentDirectory + 1
  · rw [if_neg (by omega)]
    simp only [processFile]
    rw [hmod, if_pos hcd]
  · have hch := chunkLoop_char f.name f.ftype (chunksOf f.bytes.length)
      (st.dir.set (st.currentDirectory + 1) (freshEntry f.name f.ftype 0))
      (st.currentDirectory + 1) 0 1 st.nextAllocation (by omega)
    by_cases hall : st.currentDirectory + slotsForFile f ≤ 31
    · rw [if_pos hall]
      rw [if_pos (by omega)] at hch
      obtain ⟨dir2, na2, heq⟩ := hch
      refine ⟨{ dir := dir2
                currentDirectory :=
                  st.currentDirectory + 1 + extraSlots (chunksOf f.bytes.length) 0
                nextAllocation := na2
                file_area := st.file_area ++ padFile f.bytes }, ?_, ?_⟩
      · simp only [processFile]
        rw [hmod, if_neg hcd, heq]
      · show st.currentDirectory + 1 + extraSlots (chunksOf f.bytes.length) 0 =
          st.currentDirectory + slotsForFile f
        omega
    · rw [if_neg hall]
      rw [if_neg (by omega)] at hch
      simp only [processFile]
      rw [hmod, if_neg hcd, hch]

/-- Slot accounting of the whole packing loop. -/
theorem packFold_char :
    ∀ (files : List InputFile) (st : PackState), st.currentDirectory ≤ 31 →
      (if st.currentDirectory + slotsList files ≤ 31
       then ∃ st2, packFold st files = Except.ok st2 ∧
              st2.currentDirectory = st.currentDirectory + slotsList files
       else packFold st files = Except.error PackError.outOfDirectorySpace) := by
  intro files
  induction files with
  | nil =>
      intro st h
      have h0 : slotsList ([] : List InputFile) = 0 := rfl
      rw [if_pos (by omega)]
      exact ⟨st, rfl, by omega⟩
  | cons f fs ih =>
      intro st h
      have hf := processFile_char st f h
      have hsl : slotsList (f :: fs) = slotsForFile f + slotsList fs := by
        simp [slotsList]
      have h1 : 1 ≤ slotsForFile f := by
        have : slotsForFile f = 1 + extraSlots (chunksOf f.bytes.length) 0 := rfl
        omega
      by_cases hok : st.currentDirectory + slotsForFile f ≤ 31
      · rw [if_pos hok] at hf
        obtain ⟨st2, heq, hcd2⟩ := hf
        have ih2 := ih st2 (by omega)
        have hred : packFold st (f :: fs) = packFold st2 fs := by
          simp only [packFold]
          rw [heq]
        by_cases hall : st.currentDirectory + slotsList (f :: fs) ≤ 31
        · rw [if_pos hall]
          rw [if_pos (by omega)] at ih2
          obtain ⟨st3, heq3, hcd3⟩ := ih2
          exact ⟨st3, by rw [hred, heq3], by omega⟩
        · rw [if_neg hall]
          rw [if_neg (by omega)] at ih2
          rw [hred, ih2]
      · rw [if_neg hok] at hf
        rw [if_neg (by omega)]
        simp only [packFold]
        rw [hf]

/-- A slot whose validity byte is not 0 is skipped. -/
theorem processSlot_invalid (buf : List Nat) (fb dirNo : Nat) (acc : DumpAcc)
    (h : buf.getD (dirNo * 32) 0 ≠ 0) : processSlot buf fb dirNo acc = acc := by
  unfold processSlot
  rw [if_neg h]

/-- A valid slot with extent 0 closes the open output and opens a new
one. -/
theorem processSlot_open (buf : List Nat) (fb dirNo : Nat) (acc : DumpAcc)
    (h0 : buf.getD (dirNo * 32) 0 = 0)
    (h12 : buf.getD (dirNo * 32 + 12) 0 = 0) :
    processSlot buf fb dirNo acc =
      (closeOut acc,
       some
         (trimSp ((List.range 8).map fun i => buf.getD (dirNo * 32 + 1 + i) 0) ++
            (0x2E ::
              trimSp ((List.range 3).map fun i => buf.getD (dirNo * 32 + 9 + i) 0)),
          slotBlocks buf fb (dirNo * 32))) := by
  unfold processSlot
  rw [if_pos h0, if_pos h12]

/-- A valid continuation slot appends its blocks to the open output. -/
theorem processSlot_append (buf : List Nat) (fb dirNo : Nat)
    (done : List (List Nat × List Nat)) (f : List Nat × List Nat)
    (h0 : buf.getD (dirNo * 32) 0 = 0)
    (h12 : buf.getD (dirNo * 32 + 12) 0 ≠ 0) :
    processSlot buf fb dirNo (done, some f) =
      (done, some (f.1, f.2 ++ slotBlocks buf fb (dirNo * 32))) := by
  unfold processSlot
  rw [if_pos h0, if_neg h12]

/-- Four-slot walk starting at slot 1, unrolled. -/
theorem walkSlots_eval4 (buf : List Nat) (fb : Nat) (acc : DumpAcc) :
    walkSlots buf fb 4 1 acc =
      processSlot buf fb 4
        (processSlot buf fb 3
          (processSlot buf fb 2 (processSlot buf fb 1 acc))) := rfl

/-- Closed form for `extraSlots` below the spill threshold. -/
theorem extraSlots_formula :
    ∀ (n : Nat), ∀ (a : Nat), a ≤ 15 → extraSlots n a = (n + a - 1) / 16 := by
  intro n
  induction n using Nat.strong_induction_on with
  | _ n ih =>
      match n with
      | 0 =>
          intro a ha
          have : extraSlots 0 a = 0 := rfl
          rw [this]
          omega
      | Nat.succ m =>
          intro a ha
          by_cases h15 : a = 15
          · subst h15
            have h1 : extraSlots (m + 1) 15 = extraSlots m 16 := by
              simp only [extraSlots]
              rw [if_neg (by omega)]
            rw [h1]
            match m with
            | 0 =>
                have : extraSlots 0 16 = 0 := rfl
                rw [this]
            | Nat.succ k =>
                have h2 : extraSlots (k + 1) 16 = extraSlots k 1 + 1 := by
                  simp only [extraSlots]
                  rw [if_pos (by omega)]
                rw [h2, ih k (by omega) 1 (by omega)]
                omega
          · have h2 : extraSlots (m + 1) a = extraSlots m (a + 1) := by
              simp only [extraSlots]
              rw [if_neg (by omega)]
            rw [h2, ih m (by omega) (a + 1) (by omega)]
            omega

/-- The per-file slot count in the spec's terms. -/
theorem slotsForFile_formula (f : InputFile) :
    slotsForFile f =
      if chunksOf f.bytes.length = 0 then 1
      else (chunksOf f.bytes.length + 15) / 16 := by
  unfold slotsForFile
  rw [extraSlots_formula _ 0 (by norm_num)]
  rcases Nat.eq_zero_or_pos (chunksOf f.bytes.length) with h | h
  · rw [h, if_pos rfl]
  · rw [if_neg (by omega)]
    omega

/-- The loop's slot accounting matches the spec-level `slotsNeeded`. -/
theorem slotsList_eq_slotsNeeded (files : List InputFile) :
    slotsList files = slotsNeeded files := by
  unfold slotsList slotsNeeded
  induction files with
  | nil => rfl
  | cons f fs ih =>
      simp only [List.map_cons, List.sum_cons, ih, slotsForFile_formula]

/-- Packing an empty file list succeeds and writes the all-0xFF
image: `dir_entries` ends up 0, so not a single directory byte is
copied into the 0xFF-filled buffer, and the half-swap fixes it. -/
theorem packCore_nil (outName : List Nat) :
    packCore outName [] = Except.ok (List.replicate 0x8000 0xFF) := by
  have hswap : swapHalves (List.replicate 0x8000 0xFF) = List.replicate 0x8000 0xFF :=
    swapHalves_replicate _ _ (by norm_num)
  have h1 : packState ([] : List InputFile) = Except.ok initState := rfl
  have hde : finalDirEntries initState.currentDirectory = 0 := by decide
  have hser : serialise outName initState = Except.ok (List.replicate 0x8000 0xFF) := by
    unfold serialise
    rw [if_neg (by decide)]
    rw [hde]
    show Except.ok (_ ++ (([] : List Nat) ++ _)) = _
    have hfa : initState.file_area.length = 0 := rfl
    simp only [Nat.zero_mul, List.take_zero, List.nil_append, hfa,
      Nat.add_zero, Nat.sub_zero]
  simp only [packCore, h1, hser]
  rw [if_pos (show (finalHeader outName initState).capacity = 0x20 from rfl), hswap]

/-! Claim theorems. -/

/-- Claim C5: for every input file whose length is not a multiple of
1024, the packer pads it to `ceil(len / 1024)` whole chunks and every
byte past the original length is 0x00 (`std::vector::resize`
value-initializes; the transposed `memset` writes nothing). -/
theorem pad_zero_filled (bytes : List Nat) (h : bytes.length % 1024 ≠ 0) :
    (padFile bytes).length = chunksOf bytes.length * 1024 ∧
    (padFile bytes).take bytes.length = bytes ∧
    (padFile bytes).drop bytes.length =
      List.replicate (chunksOf bytes.length * 1024 - bytes.length) 0 := by
  have hlt : bytes.length < chunksOf bytes.length * 1024 := by
    unfold chunksOf; omega
  unfold padFile
  rw [if_pos hlt]
  refine ⟨?_, List.take_left' rfl, List.drop_left' rfl⟩
  simp only [List.length_append, List.length_replicate]
  omega

/-- Witness for `pad_zero_filled` at the 3-byte input `[1, 2, 3]`. -/
theorem pad_zero_filled_witness :
    ([1, 2, 3] : List Nat).length % 1024 ≠ 0 ∧
    ((padFile [1, 2, 3]).length = chunksOf ([1, 2, 3] : List Nat).length * 1024 ∧
     (padFile [1, 2, 3]).take ([1, 2, 3] : List Nat).length = [1, 2, 3] ∧
     (padFile [1, 2, 3]).drop ([1, 2, 3] : List Nat).length =
       List.replicate
         (chunksOf ([1, 2, 3] : List Nat).length * 1024 -
           ([1, 2, 3] : List Nat).length) 0) :=
  ⟨by decide, pad_zero_filled [1, 2, 3] (by decide)⟩

/-- Claim C6: the 16 KiB half-swap is an involution on 0x8000-byte
buffers; the packer's output is exactly the swap of the serialized
image (applied once, last, since `capacity` is always 0x20); and the
unpacker applies the same exchange first, exactly when the input
length is 0x8000, so the two swaps compose to the identity. -/
theorem swap_involution_placement :
    (∀ buf : List Nat, buf.length = 0x8000 →
        swapHalves (swapHalves buf) = buf) ∧
    (∀ (outName : List Nat) (files : List InputFile),
        packCore outName files = Except.map swapHalves (packImage outName files)) ∧
    (∀ buf : List Nat, buf.length = 0x8000 →
        dumpMain buf = dump_files (swapHalves buf)) ∧
    (∀ buf : List Nat, buf.length ≠ 0x8000 → dumpMain buf = dump_files buf) := by
  refine ⟨swapHalves_involution, packCore_eq_map, ?_, ?_⟩
  · intro buf h
    unfold dumpMain
    rw [if_pos h]
  · intro buf h
    unfold dumpMain
    rw [if_neg h]

/-- Witness for `swap_involution_placement` at the all-zero
0x8000-byte buffer. -/
theorem swap_involution_placement_witness :
    swapHalves (swapHalves (List.replicate 0x8000 0)) = List.replicate 0x8000 0 ∧
    dumpMain (List.replicate 0x8000 0) =
      dump_files (swapHalves (List.replicate 0x8000 0)) ∧
    dumpMain [0xE5] = dump_files [0xE5] :=
  ⟨swap_involution_placement.1 _ (by rw [List.length_replicate]),
   swap_involution_placement.2.2.1 _ (by rw [List.length_replicate]),
   swap_involution_placement.2.2.2 [0xE5] (by decide)⟩

/-- Claim C10: invoked with an output path and zero input files the
packer succeeds: `dir_entries` is set to 0, so no directory bytes at
all are copied, and the written 0x8000-byte image is all 0xFF; the
`argc < 2` usage check does not fire for `argc = 2`. -/
theorem empty_pack_emits_blank_rom (outName : List Nat) :
    packCore outName [] = Except.ok (List.replicate 0x8000 0xFF) ∧
    packState [] = Except.ok initState ∧
    finalDirEntries initState.currentDirectory = 0 ∧
    usageCheck 2 = false :=
  ⟨packCore_nil outName, rfl, by decide, by decide⟩

/-- Claim C2 fails on the code: packing four (empty) files uses
directory slots 1..4, and the final `dir_entries` is
`((4 + 3) / 4) * 4 = 4` — equal to the highest used slot, not the
claimed `round_up_4(highest + 1) = 8`, and not strictly above it —
while the pack itself succeeds. -/
theorem dir_entries_not_slots_plus_one :
    (packState c2Files).map
        (fun st => (st.currentDirectory, finalDirEntries st.currentDirectory)) =
      Except.ok (4, 4) ∧
    (packCore [79] c2Files).toOption.isSome = true ∧
    finalDirEntries 4 ≠ ((4 + 1) + 3) / 4 * 4 ∧
    ¬ 4 < finalDirEntries 4 :=
  ⟨by decide, by decide, by decide, by decide⟩

/-- Claim C7: the packer fails with `outOfDirectorySpace` exactly when
the input set needs more than the 31 available data slots (one slot
per file plus one per started group of 16 chunks); an input set
needing at most 31 slots is never rejected for directory space. -/
theorem oods_iff_slots_exceed_31 (outName : List Nat) (files : List InputFile) :
    packCore outName files = Except.error PackError.outOfDirectorySpace ↔
      31 < slotsNeeded files := by
  rw [← slotsList_eq_slotsNeeded, packCore_eq_map,
    map_error_iff swapHalves (packImage outName files) PackError.outOfDirectorySpace]
  have hchar := packFold_char files initState (by decide)
  have hz : initState.currentDirectory = 0 := rfl
  by_cases hle : slotsList files ≤ 31
  · rw [if_pos (by omega)] at hchar
    obtain ⟨st2, heq, _⟩ := hchar
    have hpi := packImage_ok_st outName files st2 heq
    constructor
    · intro hcontra
      rw [hpi] at hcontra
      have := serialise_error outName st2 _ hcontra
      exact absurd this (by decide)
    · intro h31
      omega
  · rw [if_neg (by omega)] at hchar
    constructor
    · intro _
      omega
    · intro _
      exact packImage_error_st outName files _ hchar

/-- Witness for `oods_iff_slots_exceed_31`: the spec's scenario S5,
thirty-two one-byte files, needs 32 slots and is rejected. -/
theorem oods_iff_slots_exceed_31_witness :
    31 < slotsNeeded files32 ∧
    packCore [79] files32 = Except.error PackError.outOfDirectorySpace :=
  ⟨by decide, (oods_iff_slots_exceed_31 [79] files32).mpr (by decide)⟩

/-- Claim C8 fails on the code: an image that passes the magic check
but has `dir_entries = 5` (not a multiple of 4) is not rejected with
an operator-level CorruptDirectory error; the run ends in a violated
`assert` inside `file_area_offset`. -/
theorem corrupt_directory_not_surfaced :
    dump_files c8Img = Except.error DumpError.assertFailed ∧
    DumpError.assertFailed ≠ DumpError.notARom := by
  constructor
  · unfold dump_files
    rw [if_neg ?hm, if_pos ?hd]
    case hm =>
      have h0 : c8Img.getD 0 0 = 0xE5 := by decide
      intro hc
      exact hc.1 h0
    case hd =>
      have h22 : c8Img.getD 22 0 = 5 := by decide
      rw [h22]
      decide
  · decide

/-- Amended claim C8: for every image that passes the (buggy) magic
check but whose `dir_entries` byte is above 0x20 or not a multiple of
4, the unpacker's run ends in a violated debug assertion
(`file_area_offset`), not in an operator-surfaced CorruptDirectory
error (no such error exists in the tool). -/
theorem bad_dir_entries_hits_assert (buf : List Nat)
    (hmagic : ¬ (buf.getD 0 0 ≠ 0xE5 ∧ buf.getD 1 0 ≠ 0x37))
    (hde : ¬ (buf.getD 22 0 % 4 = 0 ∧ buf.getD 22 0 ≤ 0x20)) :
    dump_files buf = Except.error DumpError.assertFailed := by
  unfold dump_files
  rw [if_neg hmagic, if_pos hde]

/-- Witness for `bad_dir_entries_hits_assert` at `c8Img`. -/
theorem bad_dir_entries_hits_assert_witness :
    ¬ (c8Img.getD 0 0 ≠ 0xE5 ∧ c8Img.getD 1 0 ≠ 0x37) ∧
    ¬ (c8Img.getD 22 0 % 4 = 0 ∧ c8Img.getD 22 0 ≤ 0x20) ∧
    dump_files c8Img = Except.error DumpError.assertFailed :=
  ⟨by decide, by decide,
   bad_dir_entries_hits_assert c8Img (by decide) (by decide)⟩

/-- Claim C3 fails on the code: `c3Buf` is a 0x8000-byte buffer whose
post-swap first byte is 0x00, not the 0xE5 magic, yet the unpacker
accepts it and dumps zero files, because the check
`(id[0] != 0xE5) && (id[1] != 0x37)` passes whenever the second byte
is 0x37. -/
theorem magic_check_accepts_partial_match :
    (swapHalves c3Buf).getD 0 0 ≠ 0xE5 ∧
    dumpMain c3Buf = Except.ok [] := by
  have hswap : swapHalves c3Buf =
      (0 :: 0x37 :: List.replicate 0x3FFE 0) ++ List.replicate 0x4000 0 := by
    unfold swapHalves c3Buf
    rw [List.drop_left' (by rw [List.length_replicate]),
      List.take_left' (by rw [List.length_replicate])]
  have hlen : c3Buf.length = 0x8000 := by
    unfold c3Buf
    simp only [List.length_append, List.length_replicate, List.length_cons]
  constructor
  · rw [hswap]
    decide
  · unfold dumpMain
    rw [if_pos hlen, hswap]
    decide

set_option maxRecDepth 40000 in
/-- Claim C4 fails on the code: in `c4Img` the header says
`dir_entries = 4` and every directory slot 1..3 is invalid, yet the
unpacker emits a file `X.Y` — the walk's `dirNo <= dir_entries` bound
also visits offset `dir_entries * 32 = 128`, the first 32 bytes of the
file area, and parses them as a directory entry. -/
theorem walk_visits_file_area_slot :
    c4Img.getD 22 0 = 4 ∧
    c4Img.getD (1 * 32) 0 = 0xE5 ∧
    c4Img.getD (2 * 32) 0 = 0xE5 ∧
    c4Img.getD (3 * 32) 0 = 0xE5 ∧
    dump_files c4Img =
      Except.ok [([88, 46, 89], c4Phantom ++ List.replicate 992 0)] := by
  refine ⟨by decide, by decide, by decide, by decide, ?_⟩
  have h22 : c4Img.getD 22 0 = 4 := by decide
  have hname :
      trimSp ((List.range 8).map fun i => c4Img.getD (4 * 32 + 1 + i) 0) ++
        (0x2E :: trimSp ((List.range 3).map fun i => c4Img.getD (4 * 32 + 9 + i) 0)) =
      [88, 46, 89] := by decide
  have hsb : slotBlocks c4Img (4 * 32) (4 * 32) =
      c4Phantom ++ List.replicate 992 0 := by decide
  unfold dump_files
  rw [if_neg (by decide), if_neg (by decide), h22, walkSlots_eval4,
    processSlot_invalid c4Img (4 * 32) 1 ([], none) (by decide),
    processSlot_invalid c4Img (4 * 32) 2 ([], none) (by decide),
    processSlot_invalid c4Img (4 * 32) 3 ([], none) (by decide),
    processSlot_open c4Img (4 * 32) 4 ([], none) (by decide) (by decide),
    hname, hsb]
  simp only [closeOut, List.nil_append]

set_option maxRecDepth 60000 in
/-- Helper evaluation facts for the `c1File` round trip: the packing
loop result, the serialized image, and the full packer output. -/
theorem c1_pack_eval :
    packState [c1File] = Except.ok c1St ∧
    serialise [79] c1St = Except.ok c1Img ∧
    packCore [79] [c1File] = Except.ok c1Rom := by
  have hpack : packState [c1File] = Except.ok c1St := by decide
  have hser : serialise [79] c1St = Except.ok c1Img := by
    unfold serialise
    rw [if_neg (by decide)]
    rfl
  refine ⟨hpack, hser, ?_⟩
  rw [packCore_eq_map, packImage_ok_st [79] [c1File] c1St hpack, hser]
  rfl

set_option maxRecDepth 60000 in
/-- Unpacking the (unswapped) image of the `c1File` pack: the walk
also parses the first 32 file-area bytes (offset 128) as a directory
entry; those bytes are the start of `c1Bytes`, which looks like a
valid continuation extent naming block 1, so block 1 is appended to
`A.B` a second time. -/
theorem c1_dump_eval :
    dump_files c1Img = Except.ok [([65, 46, 66], c1Bytes ++ c1Bytes)] := by
  have h22 : c1Img.getD 22 0 = 4 := by decide
  have hname :
      trimSp ((List.range 8).map fun i => c1Img.getD (1 * 32 + 1 + i) 0) ++
        (0x2E :: trimSp ((List.range 3).map fun i => c1Img.getD (1 * 32 + 9 + i) 0)) =
      [65, 46, 66] := by decide
  have hsb1 : slotBlocks c1Img (4 * 32) (1 * 32) = c1Bytes := by decide
  have hsb4 : slotBlocks c1Img (4 * 32) (4 * 32) = c1Bytes := by decide
  unfold dump_files
  rw [if_neg (by decide), if_neg (by decide), h22, walkSlots_eval4]
  rw [processSlot_open c1Img (4 * 32) 1 ([], none) (by decide) (by decide)]
  rw [hname, hsb1]
  simp only [closeOut]
  rw [processSlot_invalid c1Img (4 * 32) 2 ([], some ([65, 46, 66], c1Bytes))
      (by decide)]
  rw [processSlot_invalid c1Img (4 * 32) 3 ([], some ([65, 46, 66], c1Bytes))
      (by decide)]
  rw [processSlot_append c1Img (4 * 32) 4 [] ([65, 46, 66], c1Bytes)
      (by decide) (by decide)]
  rw [hsb4]
  simp only [closeOut, List.nil_append]

set_option maxRecDepth 60000 in
/-- Claim C1 fails on the code: packing the single 1024-byte file
`A.B` (= `c1Bytes`, already a whole number of chunks, so the claim's
expected unpack output is `c1Bytes` itself) and unpacking the written
ROM produces `A.B` with 2048 bytes — block 1 twice — because the
directory walk also parses the file area's first 32 bytes as a
directory entry. -/
theorem pack_unpack_roundtrip_violated :
    packCore [79] [c1File] = Except.ok c1Rom ∧
    dumpMain c1Rom = Except.ok [([65, 46, 66], c1Bytes ++ c1Bytes)] ∧
    padFile c1Bytes = c1Bytes ∧
    c1Bytes ++ c1Bytes ≠ c1Bytes := by
  have hdb : (dirBytes (finalHeader [79] c1St) c1St.dir).length = 1024 := by decide
  have hlen : c1Bytes.length = 1024 := by decide
  have hlen8 : c1Img.length = 0x8000 := by
    unfold c1Img
    rw [List.length_append, List.length_append, List.length_take, hdb, hlen,
      List.length_replicate]
    norm_num
  refine ⟨c1_pack_eval.2.2, ?_, by decide, by decide⟩
  unfold dumpMain c1Rom
  rw [if_pos (swapHalves_length c1Img hlen8), swapHalves_involution c1Img hlen8]
  exact c1_dump_eval

/-! Well-formedness machinery for the packed header (claim C9). -/

/-- The all-0xE5 slot has the fixed field sizes. -/
theorem wfEntry_invalidEntry : wfEntry invalidEntry := ⟨rfl, rfl, rfl⟩

/-- A freshly reserved slot keeps the input's 8 + 3 name bytes. -/
theorem wfEntry_freshEntry (nm tp : List Nat) (le : Nat)
    (hn : nm.length = 8) (ht : tp.length = 3) :
    wfEntry (freshEntry nm tp le) :=
  ⟨hn, ht, by simp [freshEntry]⟩

/-- The chunk loop's per-chunk slot update keeps the field sizes. -/
theorem wfEntry_update (e : DirEntry) (rc ai na : Nat) (he : wfEntry e) :
    wfEntry
      { e with record_count := rc, allocation_map := e.allocation_map.set ai na } :=
  ⟨he.1, he.2.1, by simp [he.2.2]⟩

/-- Reading any slot of a well-formed directory gives a well-formed
entry (the default is the all-0xE5 slot). -/
theorem wfEntry_getD (dir : List DirEntry) (i : Nat)
    (h : ∀ e ∈ dir, wfEntry e) : wfEntry (dir.getD i invalidEntry) := by
  rw [List.getD_eq_getD_get?]
  cases hg : dir.get? i with
  | none => exact wfEntry_invalidEntry
  | some e => exact h e (List.get?_mem hg)

/-- Writing a well-formed entry keeps the directory well-formed. -/
theorem wfDir_set (dir : List DirEntry) (i : Nat) (e : DirEntry)
    (hd : ∀ x ∈ dir, wfEntry x) (he : wfEntry e) :
    ∀ x ∈ dir.set i e, wfEntry x := by
  intro x hx
  rcases List.mem_or_eq_of_mem_set hx with h | h
  · exact hd x h
  · rw [h]
    exact he

/-- The chunk loop keeps the directory's entries well-formed and its
slot count unchanged. -/
theorem chunkLoop_wf (nm tp : List Nat) (hn : nm.length = 8) (ht : tp.length = 3) :
    ∀ (n : Nat) (dir : List DirEntry) (cd ai le na : Nat)
      (dir2 : List DirEntry) (cd2 na2 : Nat),
      (∀ x ∈ dir, wfEntry x) →
      chunkLoop nm tp n dir cd ai le na = Except.ok (dir2, cd2, na2) →
      (∀ x ∈ dir2, wfEntry x) ∧ dir2.length = dir.length := by
  intro n
  induction n with
  | zero =>
      intro dir cd ai le na dir2 cd2 na2 hd heq
      simp only [chunkLoop] at heq
      injection heq with h
      injection h with h1 h2
      subst h1
      exact ⟨hd, rfl⟩
  | succ n ih =>
      intro dir cd ai le na dir2 cd2 na2 hd heq
      simp only [chunkLoop] at heq
      split at heq
      · split at heq
        · exact absurd heq (by simp)
        · have hfe := wfEntry_freshEntry nm tp le hn ht
          have hd1 := wfDir_set dir ((cd + 1) % 256) (freshEntry nm tp le) hd hfe
          have hge := wfEntry_getD (dir.set ((cd + 1) % 256) (freshEntry nm tp le))
            ((cd + 1) % 256) hd1
          obtain ⟨hw, hl⟩ := ih _ _ _ _ _ _ _ _
            (by exact wfDir_set _ _ _ hd1 (wfEntry_update _ _ _ _ hge)) heq
          refine ⟨hw, ?_⟩
          rw [hl]
          simp
      · have hge := wfEntry_getD dir cd hd
        obtain ⟨hw, hl⟩ := ih _ _ _ _ _ _ _ _
          (by exact wfDir_set _ _ _ hd (wfEntry_update _ _ _ _ hge)) heq
        refine ⟨hw, ?_⟩
        rw [hl]
        simp

/-- `processFile` keeps the directory well-formed with 32 slots. -/
theorem processFile_wf (st : PackState) (f : InputFile) (st2 : PackState)
    (hwf : wfInput f) (hd : ∀ x ∈ st.dir, wfEntry x) (hl : st.dir.length = 32)
    (heq : processFile st f = Except.ok st2) :
    (∀ x ∈ st2.dir, wfEntry x) ∧ st2.dir.length = 32 := by
  simp only [processFile] at heq
  split at heq
  · exact absurd heq (by simp)
  · split at heq
    · exact absurd heq (by simp)
    · rename_i dt hcl
      injection heq with h
      obtain ⟨hw, hlen⟩ := chunkLoop_wf f.name f.ftype hwf.1 hwf.2 _ _ _ _ _ _ _ _ _
        (wfDir_set st.dir _ _ hd (wfEntry_freshEntry f.name f.ftype 0 hwf.1 hwf.2))
        hcl
      rw [← h]
      refine ⟨hw, ?_⟩
      rw [hlen]
      simp [hl]

/-- The whole packing loop keeps the directory well-formed. -/
theorem packFold_wf :
    ∀ (files : List InputFile) (st st2 : PackState),
      (∀ f ∈ files, wfInput f) →
      (∀ x ∈ st.dir, wfEntry x) → st.dir.length = 32 →
      packFold st files = Except.ok st2 →
      (∀ x ∈ st2.dir, wfEntry x) ∧ st2.dir.length = 32 := by
  intro files
  induction files with
  | nil =>
      intro st st2 _ hd hl heq
      simp only [packFold] at heq
      injection heq with h
      rw [← h]
      exact ⟨hd, hl⟩
  | cons f fs ih =>
      intro st st2 hf hd hl heq
      simp only [packFold] at heq
      split at heq
      · exact absurd heq (by simp)
      · rename_i st1 h1
        obtain ⟨hd1, hl1⟩ := processFile_wf st f st1 (hf f (by simp)) hd hl h1
        exact ih st1 st2 (fun g hg => hf g (by simp [hg])) hd1 hl1 heq

/-- The `rom_name` field is always 14 bytes. -/
theorem romNameOf_length (outName : List Nat) : (romNameOf outName).length = 14 := by
  unfold romNameOf
  rw [List.length_append, List.length_take, List.length_replicate]
  omega

/-- A header with correctly sized string fields serializes to 32
bytes. -/
theorem serHeader_length (h : RomHeader)
    (hs : h.system_name.length = 3) (hr : h.rom_name.length = 14)
    (hv : h.version.length = 2) (hm : h.month.length = 2)
    (hd : h.day.length = 2) (hy : h.year.length = 2) :
    (serHeader h).length = 32 := by
  unfold serHeader
  simp [hs, hr, hv, hm, hd, hy]

/-- A well-formed entry serializes to 32 bytes. -/
theorem serDirEntry_length (e : DirEntry) (he : wfEntry e) :
    (serDirEntry e).length = 32 := by
  obtain ⟨h1, h2, h3⟩ := he
  unfold serDirEntry
  simp [h1, h2, h3]

/-- The serialized slots of a well-formed slot list occupy 32 bytes
each. -/
theorem flatten_serDir_length :
    ∀ (l : List DirEntry), (∀ e ∈ l, wfEntry e) →
      (List.flatten (l.map serDirEntry)).length = 32 * l.length := by
  intro l
  induction l with
  | nil => intro _; rfl
  | cons e es ih =>
      intro h
      simp only [List.map_cons, List.flatten_cons, List.length_append,
        serDirEntry_length e (h e (by simp)),
        ih (fun x hx => h x (by simp [hx])), List.length_cons]
      ring

/-- The in-RAM directory buffer is 1024 bytes. -/
theorem dirBytes_length (nm : List Nat) (st : PackState)
    (hd : ∀ x ∈ st.dir, wfEntry x) (hl : st.dir.length = 32) :
    (dirBytes (finalHeader nm st) st.dir).length = 1024 := by
  unfold dirBytes
  rw [List.length_append,
    serHeader_length _ (by simp [finalHeader]) (by simp [finalHeader, romNameOf_length])
      (by simp [finalHeader]) (by simp [finalHeader]) (by simp [finalHeader])
      (by simp [finalHeader]),
    flatten_serDir_length _ (fun e he => hd e (List.mem_of_mem_drop he)),
    List.length_drop, hl]

/-- Structure of a successful serialization. -/
theorem serialise_ok_parts (nm : List Nat) (st : PackState) (img : List Nat)
    (h : serialise nm st = Except.ok img) :
    finalDirEntries st.currentDirectory * 32 + st.file_area.length ≤ 0x8000 ∧
    img = (dirBytes (finalHeader nm st) st.dir).take
            (finalDirEntries st.currentDirectory * 32) ++
          (st.file_area ++
            List.replicate
              (0x8000 -
                (finalDirEntries st.currentDirectory * 32 + st.file_area.length))
              0xFF) := by
  unfold serialise at h
  split at h
  · exact absurd h (by simp)
  · rename_i hc
    injection h with h
    exact ⟨by omega, h.symm⟩

/-- A successfully serialized image is exactly 0x8000 bytes. -/
theorem serialise_ok_length (nm : List Nat) (st : PackState) (img : List Nat)
    (hd : ∀ x ∈ st.dir, wfEntry x) (hl : st.dir.length = 32)
    (hcd : st.currentDirectory ≤ 31)
    (h : serialise nm st = Except.ok img) : img.length = 0x8000 := by
  obtain ⟨hle, himg⟩ := serialise_ok_parts nm st img h
  have hdb := dirBytes_length nm st hd hl
  have hde : finalDirEntries st.currentDirectory ≤ 32 := by
    unfold finalDirEntries
    omega
  rw [himg, List.length_append, List.length_append, List.length_take,
    List.length_replicate, hdb]
  omega

/-- Reading inside the retained prefix of a list reads the list. -/
theorem getD_take_append (l r : List Nat) (n i d : Nat)
    (hi : i < n) (hn : n ≤ l.length) :
    ((l.take n) ++ r).getD i d = l.getD i d := by
  rw [List.getD_append _ _ _ _ (by rw [List.length_take]; omega)]
  conv_rhs => rw [← List.take_append_drop n l]
  rw [List.getD_append _ _ _ _ (by rw [List.length_take]; omega)]

/-- The bytes of a serialized header at the offsets the claims talk
about. -/
theorem serHeader_getD (h : RomHeader) (hs : h.system_name.length = 3)
    (hr : h.rom_name.length = 14) :
    (serHeader h).getD 0 0 = h.id0 ∧ (serHeader h).getD 1 0 = h.id1 ∧
    (serHeader h).getD 2 0 = h.capacity ∧
    (serHeader h).getD 3 0 = h.checksum % 256 ∧
    (serHeader h).getD 4 0 = h.checksum / 256 % 256 ∧
    (serHeader h).getD 22 0 = h.dir_entries := by
  refine ⟨rfl, rfl, rfl, rfl, rfl, ?_⟩
  show (h.id0 :: h.id1 :: h.capacity :: h.checksum % 256 :: h.checksum / 256 % 256 ::
    (h.system_name ++ (h.rom_name ++
      (h.dir_entries :: h.v ::
        (h.version ++ (h.month ++ (h.day ++ h.year))))))).getD 22 0 = h.dir_entries
  simp only [List.getD_cons_succ]
  rw [List.getD_append_right _ _ _ _ (by omega),
    show 17 - h.system_name.length = 14 from by omega,
    List.getD_append_right _ _ _ _ (by omega),
    show 14 - h.rom_name.length = 0 from by omega]
  exact List.getD_cons_zero

/-- Claim C9 fails on the code for the empty input list: the packer
successfully emits the all-0xFF image, whose header byte 0 (the swap
fixes the constant image) is 0xFF, not the required 0xE5 magic. -/
theorem empty_pack_header_not_wellformed :
    packCore [79] [] = Except.ok (List.replicate 0x8000 0xFF) ∧
    swapHalves (List.replicate 0x8000 0xFF) = List.replicate 0x8000 0xFF ∧
    (List.replicate 0x8000 0xFF).getD 0 0 = 0xFF ∧ (0xFF : Nat) ≠ 0xE5 :=
  ⟨packCore_nil [79], swapHalves_replicate _ _ (by norm_num),
   List.getD_cons_zero, by decide⟩

/-- Amended claim C9: every ROM image the packer emits from at least
one input file is the half-swap of its serialized image `img` — so
`img` is the emitted ROM after undoing the swap — and `img` has a
well-formed header: `id = [0xE5, 0x37]`, `capacity = 0x20`,
`dir_entries` a multiple of 4 and at most 0x20, and the checksum field
holding `len(file_area) mod 2^16`, low byte at offset 3 and high byte
at offset 4.  (The pack of zero input files violates the original
claim: its image has no header at all.) -/
theorem packed_header_wellformed (outName : List Nat) (files : List InputFile)
    (st : PackState) (img : List Nat)
    (hwf : ∀ f ∈ files, wfInput f) (hne : files ≠ [])
    (hst : packState files = Except.ok st)
    (himg : serialise outName st = Except.ok img) :
    packCore outName files = Except.ok (swapHalves img) ∧
    swapHalves (swapHalves img) = img ∧
    img.getD 0 0 = 0xE5 ∧ img.getD 1 0 = 0x37 ∧ img.getD 2 0 = 0x20 ∧
    img.getD 22 0 = finalDirEntries st.currentDirectory ∧
    finalDirEntries st.currentDirectory % 4 = 0 ∧
    finalDirEntries st.currentDirectory ≤ 0x20 ∧
    img.getD 3 0 = st.file_area.length % 65536 % 256 ∧
    img.getD 4 0 = st.file_area.length % 65536 / 256 % 256 := by
  have hfold : packFold initState files = Except.ok st := hst
  have hchar := packFold_char files initState (by decide)
  have hcd : st.currentDirectory = slotsList files ∧ st.currentDirectory ≤ 31 := by
    by_cases hle : initState.currentDirectory + slotsList files ≤ 31
    · rw [if_pos hle] at hchar
      obtain ⟨st2, heq, hcd2⟩ := hchar
      rw [hfold] at heq
      injection heq with heq
      rw [← heq] at hcd2
      have hz : initState.currentDirectory = 0 := rfl
      omega
    · rw [if_neg hle] at hchar
      rw [hfold] at hchar
      exact absurd hchar (by simp)
  have hone : 1 ≤ slotsList files := by
    cases files with
    | nil => exact absurd rfl hne
    | cons f fs =>
        have h1 : slotsList (f :: fs) = slotsForFile f + slotsList fs := by
          simp [slotsList]
        have h2 : slotsForFile f = 1 + extraSlots (chunksOf f.bytes.length) 0 := rfl
        omega
  obtain ⟨hw, hl⟩ := packFold_wf files initState st hwf
    (fun x hx => by
      rw [List.eq_of_mem_replicate (show x ∈ List.replicate 32 invalidEntry from hx)]
      exact wfEntry_invalidEntry)
    (by decide) hfold
  have hde : 4 ≤ finalDirEntries st.currentDirectory ∧
      finalDirEntries st.currentDirectory ≤ 32 ∧
      finalDirEntries st.currentDirectory % 4 = 0 := by
    unfold finalDirEntries
    omega
  obtain ⟨hle, himgeq⟩ := serialise_ok_parts outName st img himg
  have hdbl := dirBytes_length outName st hw hl
  have hgh := serHeader_getD (finalHeader outName st) (by simp [finalHeader])
    (by simp [finalHeader, romNameOf_length])
  have key : ∀ i, i < 32 → img.getD i 0 =
      (serHeader (finalHeader outName st)).getD i 0 := by
    intro i hi
    rw [himgeq, getD_take_append _ _ _ _ _ (by omega) (by omega)]
    unfold dirBytes
    rw [List.getD_append _ _ _ _ ?hlen]
    case hlen =>
      rw [serHeader_length _ (by simp [finalHeader])
        (by simp [finalHeader, romNameOf_length]) (by simp [finalHeader])
        (by simp [finalHeader]) (by simp [finalHeader]) (by simp [finalHeader])]
      omega
  refine ⟨?_, swapHalves_involution img
      (serialise_ok_length outName st img hw hl hcd.2 himg), ?_, ?_, ?_, ?_,
      hde.2.2, hde.2.1, ?_, ?_⟩
  · rw [packCore_eq_map, packImage_ok_st outName files st hst, himg]
    rfl
  · rw [key 0 (by omega), hgh.1]
    rfl
  · rw [key 1 (by omega), hgh.2.1]
    rfl
  · rw [key 2 (by omega), hgh.2.2.1]
    rfl
  · rw [key 22 (by omega), hgh.2.2.2.2.2]
    rfl
  · rw [key 3 (by omega), hgh.2.2.2.1]
    rfl
  · rw [key 4 (by omega), hgh.2.2.2.2.1]
    rfl

set_option maxRecDepth 60000 in
/-- Witness for `packed_header_wellformed`: the pack of the single
6-byte file `HELLO.TXT`. -/
theorem packed_header_wellformed_witness :
    (∀ f ∈ [sampleFile], wfInput f) ∧ ([sampleFile] : List InputFile) ≠ [] ∧
    packState [sampleFile] = Except.ok sampleSt ∧
    serialise [79, 46, 82] sampleSt = Except.ok sampleImg ∧
    (packCore [79, 46, 82] [sampleFile] = Except.ok (swapHalves sampleImg) ∧
     swapHalves (swapHalves sampleImg) = sampleImg ∧
     sampleImg.getD 0 0 = 0xE5 ∧ sampleImg.getD 1 0 = 0x37 ∧
     sampleImg.getD 2 0 = 0x20 ∧
     sampleImg.getD 22 0 = finalDirEntries sampleSt.currentDirectory ∧
     finalDirEntries sampleSt.currentDirectory % 4 = 0 ∧
     finalDirEntries sampleSt.currentDirectory ≤ 0x20 ∧
     sampleImg.getD 3 0 = sampleSt.file_area.length % 65536 % 256 ∧
     sampleImg.getD 4 0 = sampleSt.file_area.length % 65536 / 256 % 256) := by
  have h1 : ∀ f ∈ [sampleFile], wfInput f := by
    intro f hf
    rw [List.mem_singleton] at hf
    rw [hf]
    exact ⟨rfl, rfl⟩
  have h2 : ([sampleFile] : List InputFile) ≠ [] := by decide
  have h3 : packState [sampleFile] = Except.ok sampleSt := by decide
  have h4 : serialise [79, 46, 82] sampleSt = Except.ok sampleImg := by
    unfold serialise
    rw [if_neg (by decide)]
    rfl
  exact ⟨h1, h2, h3, h4,
    packed_header_wellformed [79, 46, 82] [sampleFile] sampleSt sampleImg h1 h2 h3 h4⟩

end EpsonRom
